import Mathlib

/-!
Verification of `src/account_manager.py`.

The credential-store reconciliation engine (`save_credentials_to_profile`,
lines 164-232) is embedded shallowly: Python strings become `List Char`,
`readlines` becomes an explicit splitter keeping the newline terminator,
and the imperative scan loop (lines 187-208) becomes the structural
recursion `removeOldProfile` carrying the `skip` flag.  Configuration
loading/validation (`load_config`/`validate_config`, lines 29-63), the
CLI dispatch of `main` (lines 267-309) and the role-assumption
orchestration (`assume_role`, lines 101-162, plus the glue at lines
299-302) are embedded with the external effects (file read, JSON decode,
the STS broker call) injected as parameters.
-/

/-- Python strings are modelled as lists of characters. -/
abbrev Str := List Char

/-- Characters removed by Python `str.strip()` on ASCII text. -/
def pySpace (c : Char) : Bool :=
  c == ' ' || c == '\t' || c == '\n' || c == '\r' || c == '\x0B' || c == '\x0C'

/-- Right strip: drop trailing `pySpace` characters. -/
def rstripPy (l : Str) : Str := (l.reverse.dropWhile pySpace).reverse

/-- Python `str.strip()`: drop leading and trailing whitespace. -/
def pyStrip (l : Str) : Str := rstripPy (l.dropWhile pySpace)

/-- Python `line.startswith('[')` (source line 197): a test on column 0. -/
def startsWithBracket : Str → Bool
  | [] => false
  | c :: _ => c == '['

/-- Whether the first of the remaining lines is blank; models the
`lines[i + 1].strip() == ''` lookahead of source line 203. -/
def nextBlank : List Str → Bool
  | [] => false
  | l :: _ => pyStrip l == []

/-- Helper for `readlines`: accumulates the current line in reverse. -/
def readlinesAux : Str → Str → List Str
  | [], acc => if acc.isEmpty then [] else [acc.reverse]
  | c :: rest, acc =>
    if c == '\n' then (acc.reverse ++ ['\n']) :: readlinesAux rest []
    else readlinesAux rest (c :: acc)

/-- Python `f.readlines()` (source line 178): split after each newline,
keeping the terminator; a final unterminated fragment is kept as a line. -/
def readlines (s : Str) : List Str := readlinesAux s []

/-- The `f"[{profile_name}]"` header string of source line 191. -/
def profileHeader (p : Str) : Str := '[' :: (p ++ [']'])

/-- The scan loop of `save_credentials_to_profile` (source lines 183-208):
removes every line region belonging to a block whose header strips to
`hdr`, and collapses runs of consecutive blank lines, returning the kept
lines together with the `profile_found` flag. -/
def removeOldProfile (hdr : Str) : Bool → List Str → List Str × Bool
  | _, [] => ([], false)
  | skip, line :: rest =>
    if pyStrip line == hdr then
      ((removeOldProfile hdr true rest).1, true)
    else
      let skip1 := if skip && startsWithBracket line then false else skip
      if skip1 then removeOldProfile hdr skip1 rest
      else if pyStrip line == [] && nextBlank rest then removeOldProfile hdr skip1 rest
      else
        let r := removeOldProfile hdr skip1 rest
        (line :: r.1, r.2)

/-- The four lines appended at source lines 215-218: the new block. -/
def newBlockLines (p a s t : Str) : List Str :=
  [profileHeader p ++ ['\n'],
   "aws_access_key_id = ".data ++ a ++ ['\n'],
   "aws_secret_access_key = ".data ++ s ++ ['\n'],
   "aws_session_token = ".data ++ t ++ ['\n']]

/-- The separator appended at source lines 211-212: a single `"\n"` when
the kept lines are non-empty and their last element is not blank. -/
def sepIf (ls : List Str) : List Str :=
  match ls.getLast? with
  | none => []
  | some l => if pyStrip l == [] then [] else [['\n']]

/-- The pure content transformation of `save_credentials_to_profile`
(source lines 182-218): scan and excise the old block, add the separator,
append the new block; the Bool is the `profile_found` flag of line 184. -/
def save_credentials_to_profile (lines : List Str) (p a s t : Str) :
    List Str × Bool :=
  let r := removeOldProfile (profileHeader p) false lines
  (r.1 ++ sepIf r.1 ++ newBlockLines p a s t, r.2)

/-- The bytes passed to `f.writelines` (source line 223) for a given prior
file content: read lines, reconcile, concatenate. -/
def writtenContent (content : Str) (p a s t : Str) : Str :=
  List.flatten (save_credentials_to_profile (readlines content) p a s t).1

/-- A line as produced by `readlines` from newline-terminated text: a
newline-free body followed by the terminator. -/
def goodLine (l : Str) : Prop := ∃ b, l = b ++ ['\n'] ∧ '\n' ∉ b

/-- All elements except possibly the final one are newline-terminated;
`readlines` output always has this shape. -/
def allButLastGood : List Str → Prop
  | [] => True
  | [_] => True
  | l :: rest => goodLine l ∧ allButLastGood rest

/-- Adjacent-pair relation: not both lines blank. -/
abbrev notDoubleBlank (x y : Str) : Prop := pyStrip x ≠ [] ∨ pyStrip y ≠ []

/-- Executable check that no two adjacent lines are both blank. -/
def noDoubleBlankB : List Str → Bool
  | [] => true
  | [_] => true
  | x :: y :: rest =>
    (!(pyStrip x == [] && pyStrip y == [])) && noDoubleBlankB (y :: rest)

/-- The property named by the spec: a string of exactly 12 ASCII digits. -/
def isTwelveAsciiDigits (s : Str) : Bool :=
  s.length == 12 && s.all (fun c => '0' ≤ c && c ≤ '9')

/-- JSON values as produced by `json.load` (source line 37). -/
inductive JVal where
  | null
  | bool (b : Bool)
  | num (n : Int)
  | str (s : Str)
  | arr (xs : List JVal)
  | obj (kvs : List (Str × JVal))

/-- The Python exceptions that flow through `load_config` and
`validate_config` (source lines 14-63). -/
inductive PyExc where
  | configError (msg : Str)
  | jsonDecodeError (msg : Str)
  | osError (msg : Str)
  | attributeError (msg : Str)
  | typeError (msg : Str)
  | keyError (msg : Str)
deriving DecidableEq

/-- Python `str(e)` on the exceptions above: the carried message. -/
def strOfExc : PyExc → Str
  | .configError m => m
  | .jsonDecodeError m => m
  | .osError m => m
  | .attributeError m => m
  | .typeError m => m
  | .keyError m => m

/-- Python type name of a JSON value, used in exception messages. -/
def pyTypeName : JVal → Str
  | .null => "NoneType".data
  | .bool _ => "bool".data
  | .num _ => "int".data
  | .str _ => "str".data
  | .arr _ => "list".data
  | .obj _ => "dict".data

/-- Python `==` between a JSON value and a string key (used by `in` on
lists); only equal strings compare equal. -/
def jvalEqStr : JVal → Str → Bool
  | .str s, k => s == k
  | _, _ => false

/-- Whether `needle` is an initial segment of `hay`. -/
def isPrefixList : Str → Str → Bool
  | [], _ => true
  | _ :: _, [] => false
  | c :: ns, h :: hs => c == h && isPrefixList ns hs

/-- Python substring test `needle in hay` for strings. -/
def strContains : Str → Str → Bool
  | [], needle => needle.isEmpty
  | c :: rest, needle => isPrefixList needle (c :: rest) || strContains rest needle

/-- Python `key in v` for the value kinds `json.load` can produce:
dict key lookup, list membership, substring test; non-iterables raise. -/
def pyIn (key : Str) (v : JVal) : Except PyExc Bool :=
  match v with
  | .obj kvs => .ok (kvs.any (fun kv => kv.1 == key))
  | .arr xs => .ok (xs.any (fun x => jvalEqStr x key))
  | .str s => .ok (strContains s key)
  | v => .error (.typeError ("argument of type '".data ++ pyTypeName v ++
      "' is not iterable".data))

/-- Lookup in a JSON object; a duplicated key keeps the last value, as
`json.load` does when building the dict. -/
def dictGet (kvs : List (Str × JVal)) (key : Str) : Option JVal :=
  ((kvs.filter (fun kv => kv.1 == key)).getLast?).map Prod.snd

/-- Python subscript `v[key]` with a string key. -/
def pyGet (v : JVal) (key : Str) : Except PyExc JVal :=
  match v with
  | .obj kvs =>
    match dictGet kvs key with
    | some x => .ok x
    | none => .error (.keyError key)
  | .arr _ => .error (.typeError "list indices must be integers or slices, not str".data)
  | .str _ => .error (.typeError "string indices must be integers".data)
  | v => .error (.typeError ("'".data ++ pyTypeName v ++ "' object is not subscriptable".data))

/-- Modelled from Python's built-in `str.isdigit` character test,
restricted to the character classes exercised here: ASCII digits,
Arabic-Indic digits (U+0660 to U+0669) and the Latin-1 superscripts;
Python's full table accepts every Unicode decimal or digit code point. -/
def pyDigitChar (c : Char) : Bool :=
  c.isDigit || (0x660 ≤ c.toNat && c.toNat ≤ 0x669) ||
    c == '¹' || c == '²' || c == '³'

/-- Python `s.isdigit()`: non-empty and every character a digit. -/
def pyIsdigit (s : Str) : Bool := !s.isEmpty && s.all pyDigitChar

/-- Evaluating `x.isdigit()` on a JSON value: attribute lookup fails on
anything that is not a string. -/
def pyIsdigitAttr : JVal → Except PyExc Bool
  | .str s => .ok (pyIsdigit s)
  | v => .error (.attributeError ("'".data ++ pyTypeName v ++
      "' object has no attribute 'isdigit'".data))

/-- Python `len(x)` for JSON values. -/
def pyLen : JVal → Except PyExc Nat
  | .str s => .ok s.length
  | .arr xs => .ok xs.length
  | .obj kvs => .ok ((kvs.map Prod.fst).eraseDups.length)
  | v => .error (.typeError ("object of type '".data ++ pyTypeName v ++
      "' has no len()".data))

/-- Python `str(x)` as used by the f-strings in the validation messages;
only the string case is reached by the claims. -/
def pyStr : JVal → Str
  | .str s => s
  | .num n => (toString n).data
  | .bool b => if b then "True".data else "False".data
  | .null => "None".data
  | .arr _ => "<list>".data
  | .obj _ => "<dict>".data

/-- One iteration of the account loop of `validate_config` (source lines
55-63) for the account at index `i`; any exception raised by the dynamic
operations (`in`, subscript, `.isdigit()`, `len`) propagates. -/
def validateAccount (i : Nat) (account : JVal) : Except PyExc Unit :=
  match pyIn "name".data account with
  | .error e => .error e
  | .ok hasName =>
    if !hasName then
      .error (.configError ("Account at index ".data ++ Nat.toDigits 10 i ++
        " missing 'name' field".data))
    else
      match pyIn "account_id".data account with
      | .error e => .error e
      | .ok hasId =>
        if !hasId then
          match pyGet account "name".data with
          | .error e => .error e
          | .ok nm => .error (.configError ("Account '".data ++ pyStr nm ++
              "' missing 'account_id' field".data))
        else
          match pyGet account "account_id".data with
          | .error e => .error e
          | .ok idv =>
            match pyIsdigitAttr idv with
            | .error e => .error e
            | .ok isd =>
              if !isd then
                match pyGet account "name".data with
                | .error e => .error e
                | .ok nm => .error (.configError ("Account '".data ++ pyStr nm ++
                    "' has invalid account_id format".data))
              else
                match pyLen idv with
                | .error e => .error e
                | .ok len =>
                  if len ≠ 12 then
                    match pyGet account "name".data with
                    | .error e => .error e
                    | .ok nm => .error (.configError ("Account '".data ++ pyStr nm ++
                        "' has invalid account_id format".data))
                  else .ok ()

/-- The `for i, account in enumerate(config['accounts'])` loop. -/
def validateAccounts : Nat → List JVal → Except PyExc Unit
  | _, [] => .ok ()
  | i, a :: rest =>
    match validateAccount i a with
    | .error e => .error e
    | .ok _ => validateAccounts (i + 1) rest

/-- The body of `validate_config` (source lines 47-63). -/
def validate_config (config : JVal) : Except PyExc Unit :=
  match pyIn "accounts".data config with
  | .error e => .error e
  | .ok has =>
    if !has then .error (.configError "Config must contain 'accounts' key".data)
    else
      match pyGet config "accounts".data with
      | .error e => .error e
      | .ok accs =>
        match accs with
        | .arr xs => validateAccounts 0 xs
        | _ => .error (.configError "'accounts' must be a list".data)

/-- A registry entry that passes every check of the account loop: a dict
with a `name` key, an `account_id` key, and a string id accepted by
`isdigit` with length 12. -/
def accountOk : JVal → Bool
  | .obj kvs =>
    (kvs.any (fun kv => kv.1 == "name".data)) &&
    (kvs.any (fun kv => kv.1 == "account_id".data)) &&
    (match dictGet kvs "account_id".data with
     | some (.str s) => pyIsdigit s && s.length == 12
     | _ => false)
  | _ => false

/-- A registry whose single account id is twelve superscript-two digits:
not ASCII digits, yet accepted by Python `isdigit`. -/
def unicodeDigitRegistry : JVal :=
  JVal.obj [("accounts".data,
    JVal.arr [JVal.obj [("name".data, JVal.str "prod".data),
      ("account_id".data, JVal.str "²²²²²²²²²²²²".data)]])]

/-- The spec scenario: a registry whose single account id is the
five-digit string 12345. -/
def fiveDigitRegistry : JVal :=
  JVal.obj [("accounts".data,
    JVal.arr [JVal.obj [("name".data, JVal.str "dev".data),
      ("account_id".data, JVal.str "12345".data)]])]

/-- The try/except structure of `load_config` (source lines 35-45) when
the config file exists.  `decoded` is the combined outcome of reading the
file and running `json.load` on it; the two handlers turn a
`JSONDecodeError` and any other exception into a `ConfigError`. -/
def load_config (decoded : Except PyExc JVal) : Except PyExc JVal :=
  let body : Except PyExc JVal :=
    match decoded with
    | .error e => .error e
    | .ok cfg =>
      match validate_config cfg with
      | .ok _ => .ok cfg
      | .error e => .error e
  match body with
  | .ok cfg => .ok cfg
  | .error (.jsonDecodeError m) =>
    .error (.configError ("Invalid JSON in config file: ".data ++ m))
  | .error e =>
    .error (.configError ("Error loading config: ".data ++ strOfExc e))

/-- What `main` (source lines 267-309) does: which command, if any, runs. -/
inductive MainTrace where
  | initFailed
  | initCrashed
  | usage
  | ranList
  | assumeMissingArg
  | ranAssume (account : Str)
  | ranWhoami
  | unknownCommand
deriving DecidableEq

/-- The control flow of `main`: a failed `load_config` aborts before any
command (lines 271-275; the `boto3.client` call, a network effect, is not
modelled); otherwise the arguments after the script name dispatch the
command (lines 277-309). -/
def main_model (loadOutcome : Except PyExc JVal) (args : List Str) : MainTrace :=
  match loadOutcome with
  | .error (.configError _) => .initFailed
  | .error _ => .initCrashed
  | .ok _ =>
    match args with
    | [] => .usage
    | cmd :: rest =>
      if cmd == "list".data then .ranList
      else if cmd == "assume".data then
        match rest with
        | [] => .assumeMissingArg
        | name :: _ => .ranAssume name
      else if cmd == "whoami".data then .ranWhoami
      else .unknownCommand

/-- The temporary credential tuple returned by the broker. -/
structure Creds where
  AccessKeyId : Str
  SecretAccessKey : Str
  SessionToken : Str
  Expiration : Str
deriving DecidableEq

/-- Outcome of the `sts_client.assume_role` call (source line 128):
success, a `ClientError` with code and message, or any other exception. -/
inductive BrokerOutcome where
  | ok (c : Creds)
  | clientError (code msg : Str)
  | unexpected (msg : Str)

/-- One audit line as written by `log_access` (source lines 234-249),
including the trailing newline of line 247. -/
def log_line (ts : Str) (success : Bool) (account session : Str)
    (err : Option Str) : Str :=
  ts ++ " - ".data ++ (if success then "SUCCESS".data else "FAILED".data) ++
    " - Account: '".data ++ account ++ "' - Session: ".data ++ session ++
    (match err with
     | some e => " - Error: ".data ++ e
     | none => []) ++ ['\n']

/-- `assume_role` (source lines 126-162) after the broker is reached:
returns the credentials (or none) and the audit lines appended. -/
def assume_role (account_name session_name ts : Str) (outcome : BrokerOutcome) :
    Option Creds × List Str :=
  match outcome with
  | .ok c => (some c, [log_line ts true account_name session_name none])
  | .clientError _ msg => (none, [log_line ts false account_name session_name (some msg)])
  | .unexpected msg => (none, [log_line ts false account_name session_name (some msg)])

/-- Result of the `assume` command glue in `main` (source lines 299-302):
the credential-store content afterwards, the profile written (if any) and
the audit lines appended. -/
structure AssumeCmdResult where
  store : Str
  wroteProfile : Option Str
  audit : List Str

/-- The `assume` command for an attempt that reaches the broker:
`main` calls `assume_role` and, when credentials come back, calls
`save_credentials_to_profile` with no profile override, so the profile
defaults to `assumed-<account>` (source line 167). -/
def assume_command (store : Str) (account_name session_name ts : Str)
    (outcome : BrokerOutcome) : AssumeCmdResult :=
  let r := assume_role account_name session_name ts outcome
  match r.1 with
  | some c =>
    let profile := "assumed-".data ++ account_name
    { store := writtenContent store profile c.AccessKeyId c.SecretAccessKey c.SessionToken
      wroteProfile := some profile
      audit := r.2 }
  | none => { store := store, wroteProfile := none, audit := r.2 }

/-- Observable outcome of the file write cycle. -/
structure SaveCycleResult where
  written : Option (List Str)
  printedWriteError : Bool
deriving DecidableEq

/-- The I/O structure of `save_credentials_to_profile` (source lines
176-232) with the filesystem outcomes injected: the read (lines 176-180)
is not guarded by any handler, so a read failure propagates as the raw
exception; the write (lines 221-232) is wrapped in `try/except IOError`,
whose handler only prints, so a write failure returns normally. -/
def save_credentials_write_cycle (readOutcome : Except PyExc (List Str))
    (writeError : Option Str) (p a s t : Str) : Except PyExc SaveCycleResult :=
  match readOutcome with
  | .error e => .error e
  | .ok lines =>
    match writeError with
    | some _ => .ok { written := none, printedWriteError := true }
    | none =>
      .ok { written := some (save_credentials_to_profile lines p a s t).1
            printedWriteError := false }

theorem chain'_of_noDoubleBlankB : ∀ {ls : List Str},
    noDoubleBlankB ls = true → List.Chain' notDoubleBlank ls := by
  intro ls
  induction ls with
  | nil => intro _; simp
  | cons x rest ih =>
    cases rest with
    | nil => intro _; simp
    | cons y rest2 =>
      intro h
      rw [noDoubleBlankB, Bool.and_eq_true] at h
      refine List.chain'_cons'.mpr ⟨?_, ih h.2⟩
      intro z hz
      simp only [List.head?_cons, Option.mem_def, Option.some_inj] at hz
      subst hz
      by_cases hx : pyStrip x = []
      · refine Or.inr fun hy2 => ?_
        rw [hx, hy2] at h
        simp at h
      · exact Or.inl hx

theorem rstripPy_append_space {c : Char} (h : pySpace c = true) (l : Str) :
    rstripPy (l ++ [c]) = rstripPy l := by
  simp [rstripPy, List.dropWhile_cons, h]

theorem rstripPy_append_nospace {c : Char} (h : pySpace c = false) (l : Str) :
    rstripPy (l ++ [c]) = l ++ [c] := by
  simp [rstripPy, List.dropWhile_cons, h]

theorem pyStrip_eq_nil_iff {l : Str} :
    pyStrip l = [] ↔ ∀ c ∈ l, pySpace c = true := by
  unfold pyStrip rstripPy
  rw [List.reverse_eq_nil_iff, List.dropWhile_eq_nil_iff]
  constructor
  · intro h c hc
    rw [← List.takeWhile_append_dropWhile pySpace l] at hc
    rcases List.mem_append.mp hc with h1 | h2
    · exact List.mem_takeWhile_imp h1
    · exact h c (List.mem_reverse.mpr h2)
  · intro h c hc
    exact h c ((List.dropWhile_sublist pySpace).mem (List.mem_reverse.mp hc))

theorem not_blank_of_mem {l : Str} {c : Char} (hc : c ∈ l)
    (hs : pySpace c = false) : pyStrip l ≠ [] := by
  intro h
  have := pyStrip_eq_nil_iff.mp h c hc
  rw [hs] at this
  exact Bool.false_ne_true this

theorem startsWithBracket_not_blank {l : Str} (h : startsWithBracket l = true) :
    pyStrip l ≠ [] := by
  cases l with
  | nil => simp [startsWithBracket] at h
  | cons c rest =>
    have hc : c = '[' := by simpa [startsWithBracket] using h
    subst hc
    exact not_blank_of_mem (List.mem_cons_self '[' rest) (by decide)

theorem pyStrip_append_newline (l : Str) : pyStrip (l ++ ['\n']) = pyStrip l := by
  by_cases h : ∀ c ∈ l, pySpace c = true
  · have h1 : pyStrip (l ++ ['\n']) = [] := by
      rw [pyStrip_eq_nil_iff]
      intro c hc
      rcases List.mem_append.mp hc with h2 | h2
      · exact h c h2
      · simp at h2; subst h2; decide
    have h2 : pyStrip l = [] := pyStrip_eq_nil_iff.mpr h
    rw [h1, h2]
  · have hd : l.dropWhile pySpace ≠ [] := by
      rw [Ne, List.dropWhile_eq_nil_iff]; exact h
    unfold pyStrip
    rw [List.dropWhile_append]
    simp only [List.isEmpty_iff, if_neg hd]
    exact rstripPy_append_space (by decide) _

theorem pyStrip_profileHeader (p : Str) :
    pyStrip (profileHeader p) = profileHeader p := by
  unfold pyStrip profileHeader
  rw [List.dropWhile_cons]
  have h1 : pySpace '[' = false := by decide
  rw [h1]
  simp only [Bool.false_eq_true, if_false]
  rw [show ('[' : Char) :: (p ++ [']']) = (('[' :: p) ++ [']']) by simp]
  exact rstripPy_append_nospace (by decide) _

theorem pyStrip_headerLine (p : Str) :
    pyStrip (profileHeader p ++ ['\n']) = profileHeader p := by
  rw [pyStrip_append_newline, pyStrip_profileHeader]

theorem profileHeader_ne_nil (p : Str) : profileHeader p ≠ [] := by
  simp [profileHeader]

theorem headerLine_not_blank (p : Str) :
    pyStrip (profileHeader p ++ ['\n']) ≠ [] := by
  rw [pyStrip_headerLine]; exact profileHeader_ne_nil p

theorem readlinesAux_append_acc {b : Str} (hb : '\n' ∉ b) (s acc : Str) :
    readlinesAux (b ++ s) acc = readlinesAux s (b.reverse ++ acc) := by
  induction b generalizing acc with
  | nil => simp
  | cons c cs ih =>
    have hc : c ≠ '\n' := fun h => hb (h ▸ List.mem_cons_self c cs)
    have hcs : '\n' ∉ cs := fun h => hb (List.mem_cons_of_mem _ h)
    show readlinesAux (c :: (cs ++ s)) acc = _
    rw [readlinesAux, if_neg (by simpa using hc), ih hcs]
    simp

theorem readlines_cons_newline {b : Str} (hb : '\n' ∉ b) (s : Str) :
    readlines (b ++ '\n' :: s) = (b ++ ['\n']) :: readlines s := by
  unfold readlines
  rw [readlinesAux_append_acc hb]
  rw [readlinesAux, if_pos (by simp)]
  simp

theorem readlines_no_newline {s : Str} (hs : '\n' ∉ s) (hne : s ≠ []) :
    readlines s = [s] := by
  unfold readlines
  have h := readlinesAux_append_acc hs [] []
  rw [List.append_nil] at h
  rw [h]
  rw [readlinesAux]
  simp [hne]

theorem flatten_readlinesAux (s : Str) : ∀ acc : Str,
    (readlinesAux s acc).flatten = acc.reverse ++ s := by
  induction s with
  | nil =>
    intro acc
    rw [readlinesAux]
    by_cases h : acc.isEmpty
    · rw [if_pos h]
      simp [List.isEmpty_iff.mp h]
    · rw [if_neg h]; simp
  | cons c rest ih =>
    intro acc
    rw [readlinesAux]
    by_cases hc : c = '\n'
    · subst hc
      rw [if_pos (by simp)]
      simp [ih []]
    · rw [if_neg (by simpa using hc), ih (c :: acc)]
      simp

theorem flatten_readlines (s : Str) : (readlines s).flatten = s := by
  unfold readlines
  rw [flatten_readlinesAux]
  simp

theorem readlines_mem_shape {s : Str} : ∀ acc : Str, '\n' ∉ acc →
    ∀ l ∈ readlinesAux s acc, l ≠ [] ∧ ('\n' ∉ l ∨ goodLine l) := by
  induction s with
  | nil =>
    intro acc hacc l hl
    rw [readlinesAux] at hl
    by_cases h : acc.isEmpty
    · rw [if_pos h] at hl; simp at hl
    · rw [if_neg h] at hl
      simp only [List.mem_singleton] at hl
      subst hl
      refine ⟨by simpa [List.isEmpty_iff] using h, Or.inl ?_⟩
      simpa using hacc
  | cons c rest ih =>
    intro acc hacc l hl
    rw [readlinesAux] at hl
    by_cases hc : c = '\n'
    · subst hc
      rw [if_pos (by simp)] at hl
      rcases List.mem_cons.mp hl with h1 | h1
      · subst h1
        refine ⟨by simp, Or.inr ⟨acc.reverse, rfl, by simpa using hacc⟩⟩
      · exact ih [] (by simp) l h1
    · rw [if_neg (by simpa using hc)] at hl
      exact ih (c :: acc) (by simp [hacc, Ne.symm hc]) l hl

theorem readlines_allGood_aux {s : Str} : ∀ acc : Str, '\n' ∉ acc →
    s.getLast? = some '\n' → ∀ l ∈ readlinesAux s acc, goodLine l := by
  induction s with
  | nil => intro acc _ hs; simp at hs
  | cons c rest ih =>
    intro acc hacc hs l hl
    rw [readlinesAux] at hl
    by_cases hc : c = '\n'
    · subst hc
      rw [if_pos (by simp)] at hl
      rcases List.mem_cons.mp hl with h1 | h1
      · subst h1; exact ⟨acc.reverse, rfl, by simpa using hacc⟩
      · cases rest with
        | nil => rw [readlinesAux] at h1; simp at h1
        | cons d ds =>
          rw [List.getLast?_cons_cons] at hs
          exact ih [] (by simp) hs l h1
    · rw [if_neg (by simpa using hc)] at hl
      cases rest with
      | nil =>
        rw [List.getLast?_singleton] at hs
        exact absurd (Option.some_injective _ hs) hc
      | cons d ds =>
        rw [List.getLast?_cons_cons] at hs
        exact ih (c :: acc) (by simp [hacc, Ne.symm hc]) hs l hl

theorem readlines_allGood {s : Str} (h : s = [] ∨ s.getLast? = some '\n') :
    ∀ l ∈ readlines s, goodLine l := by
  rcases h with h | h
  · subst h; intro l hl; simp [readlines, readlinesAux] at hl
  · exact readlines_allGood_aux [] (by simp) h

theorem allButLastGood_cons {x : Str} {xs : List Str} (hx : goodLine x)
    (hxs : allButLastGood xs) : allButLastGood (x :: xs) := by
  cases xs with
  | nil => trivial
  | cons y ys => exact ⟨hx, hxs⟩

theorem allButLastGood_of_cons {x : Str} {xs : List Str}
    (h : allButLastGood (x :: xs)) : allButLastGood xs := by
  cases xs with
  | nil => trivial
  | cons y ys => exact h.2

theorem goodLine_of_cons {x : Str} {xs : List Str}
    (h : allButLastGood (x :: xs)) (hne : xs ≠ []) : goodLine x := by
  cases xs with
  | nil => exact absurd rfl hne
  | cons y ys => exact h.1

theorem readlines_allButLastGood_aux {s : Str} : ∀ acc : Str, '\n' ∉ acc →
    allButLastGood (readlinesAux s acc) := by
  induction s with
  | nil =>
    intro acc _
    rw [readlinesAux]
    by_cases h : acc.isEmpty
    · rw [if_pos h]; trivial
    · rw [if_neg h]; trivial
  | cons c rest ih =>
    intro acc hacc
    rw [readlinesAux]
    by_cases hc : c = '\n'
    · subst hc
      rw [if_pos (by simp)]
      exact allButLastGood_cons ⟨acc.reverse, rfl, by simpa using hacc⟩
        (ih [] (by simp))
    · rw [if_neg (by simpa using hc)]
      exact ih (c :: acc) (by simp [hacc, Ne.symm hc])

theorem readlines_allButLastGood (s : Str) : allButLastGood (readlines s) :=
  readlines_allButLastGood_aux [] (by simp)

theorem sublist_allButLastGood {s t : List Str} (h : s.Sublist t)
    (ht : allButLastGood t) : allButLastGood s := by
  induction h with
  | slnil => trivial
  | cons a h2 ih => exact ih (allButLastGood_of_cons ht)
  | cons₂ a h2 ih =>
    rename_i s' t'
    cases s' with
    | nil => trivial
    | cons x xs =>
      have htne : t' ≠ [] := by
        intro he
        subst he
        have := List.sublist_nil.mp h2
        simp at this
      exact allButLastGood_cons (goodLine_of_cons ht htne)
        (ih (allButLastGood_of_cons ht))

theorem rop_nil (hdr : Str) (skip : Bool) :
    removeOldProfile hdr skip [] = ([], false) := rfl

theorem rop_match {hdr line : Str} (h : pyStrip line = hdr) (skip : Bool)
    (rest : List Str) :
    removeOldProfile hdr skip (line :: rest) =
      ((removeOldProfile hdr true rest).1, true) := by
  rw [removeOldProfile, if_pos (by simp [h])]

theorem rop_skip_drop {hdr line : Str} (hm : pyStrip line ≠ hdr)
    (hbr : startsWithBracket line = false) (rest : List Str) :
    removeOldProfile hdr true (line :: rest) = removeOldProfile hdr true rest := by
  rw [removeOldProfile, if_neg (by simp [hm])]
  simp [hbr]

theorem rop_unskip_emit {hdr line : Str} (hm : pyStrip line ≠ hdr)
    (hbr : startsWithBracket line = true) (rest : List Str) :
    removeOldProfile hdr true (line :: rest) =
      (line :: (removeOldProfile hdr false rest).1,
        (removeOldProfile hdr false rest).2) := by
  rw [removeOldProfile, if_neg (by simp [hm])]
  have hnb : (pyStrip line == []) = false :=
    beq_eq_false_iff_ne.mpr (startsWithBracket_not_blank hbr)
  simp [hbr, hnb]

theorem rop_blank_drop {hdr line : Str} (hm : pyStrip line ≠ hdr)
    (hb : pyStrip line = []) {rest : List Str} (hnb : nextBlank rest = true) :
    removeOldProfile hdr false (line :: rest) =
      removeOldProfile hdr false rest := by
  rw [removeOldProfile, if_neg (by simp [hm])]
  simp [hb, hnb]

theorem rop_emit {hdr line : Str} {rest : List Str} (hm : pyStrip line ≠ hdr)
    (h : pyStrip line ≠ [] ∨ nextBlank rest = false) :
    removeOldProfile hdr false (line :: rest) =
      (line :: (removeOldProfile hdr false rest).1,
        (removeOldProfile hdr false rest).2) := by
  rw [removeOldProfile, if_neg (by simp [hm])]
  have hx : (pyStrip line == [] && nextBlank rest) = false := by
    rcases h with h | h
    · simp [beq_eq_false_iff_ne.mpr h]
    · simp [h]
  simp [hx]
  intro h1 h2
  rcases h with h3 | h3
  · exact absurd h1 h3
  · exact absurd h2 (by simp [h3])

theorem rop_head_true (hdr : Str) : ∀ ls : List Str,
    ∀ y ∈ (removeOldProfile hdr true ls).1.head?, startsWithBracket y = true := by
  intro ls
  induction ls with
  | nil => simp [rop_nil]
  | cons l r ih =>
    by_cases hm : pyStrip l = hdr
    · rw [rop_match hm]; exact ih
    · by_cases hbr : startsWithBracket l = true
      · rw [rop_unskip_emit hm hbr]
        intro y hy
        simp only [List.head?_cons, Option.mem_def, Option.some_inj] at hy
        subst hy; exact hbr
      · rw [rop_skip_drop hm (Bool.eq_false_iff.mpr hbr)]
        exact ih

theorem rop_head_nonblank (hdr : Str) : ∀ ls : List Str,
    (∀ y ∈ ls.head?, pyStrip y ≠ []) →
    ∀ z ∈ (removeOldProfile hdr false ls).1.head?, pyStrip z ≠ [] := by
  intro ls
  cases ls with
  | nil => intro _; simp [rop_nil]
  | cons l r =>
    intro hhead
    have hl : pyStrip l ≠ [] := hhead l (by simp)
    by_cases hm : pyStrip l = hdr
    · rw [rop_match hm]
      intro z hz
      exact startsWithBracket_not_blank (rop_head_true hdr r z hz)
    · rw [rop_emit hm (Or.inl hl)]
      intro z hz
      simp only [List.head?_cons, Option.mem_def, Option.some_inj] at hz
      subst hz; exact hl

theorem rop_chain (hdr : Str) : ∀ (ls : List Str) (skip : Bool),
    List.Chain' notDoubleBlank (removeOldProfile hdr skip ls).1 := by
  intro ls
  induction ls with
  | nil => intro skip; simp [rop_nil]
  | cons l r ih =>
    intro skip
    by_cases hm : pyStrip l = hdr
    · rw [rop_match hm]; exact ih true
    · cases skip with
      | true =>
        by_cases hbr : startsWithBracket l = true
        · rw [rop_unskip_emit hm hbr]
          rw [List.chain'_cons']
          refine ⟨fun y _ => Or.inl (startsWithBracket_not_blank hbr), ih false⟩
        · rw [rop_skip_drop hm (Bool.eq_false_iff.mpr hbr)]
          exact ih true
      | false =>
        by_cases hb : pyStrip l = []
        · by_cases hnb : nextBlank r = true
          · rw [rop_blank_drop hm hb hnb]; exact ih false
          · have hnb2 : nextBlank r = false := Bool.eq_false_iff.mpr hnb
            rw [rop_emit hm (Or.inr hnb2)]
            rw [List.chain'_cons']
            refine ⟨fun y hy => ?_, ih false⟩
            refine Or.inr (rop_head_nonblank hdr r ?_ y hy)
            intro z hz
            cases r with
            | nil => simp at hz
            | cons x r2 =>
              simp only [List.head?_cons, Option.mem_def, Option.some_inj] at hz
              subst hz
              simpa [nextBlank] using hnb2
        · rw [rop_emit hm (Or.inl hb)]
          rw [List.chain'_cons']
          exact ⟨fun y _ => Or.inl hb, ih false⟩

theorem rop_sublist (hdr : Str) : ∀ (ls : List Str) (skip : Bool),
    (removeOldProfile hdr skip ls).1.Sublist ls := by
  intro ls
  induction ls with
  | nil => intro skip; simp [rop_nil]
  | cons l r ih =>
    intro skip
    by_cases hm : pyStrip l = hdr
    · rw [rop_match hm]
      exact (ih true).cons l
    · cases skip with
      | true =>
        by_cases hbr : startsWithBracket l = true
        · rw [rop_unskip_emit hm hbr]
          exact (ih false).cons₂ l
        · rw [rop_skip_drop hm (Bool.eq_false_iff.mpr hbr)]
          exact (ih true).cons l
      | false =>
        by_cases hb : (pyStrip l = []) ∧ nextBlank r = true
        · rw [rop_blank_drop hm hb.1 hb.2]
          exact (ih false).cons l
        · have h2 : pyStrip l ≠ [] ∨ nextBlank r = false := by
            by_cases h3 : pyStrip l = []
            · exact Or.inr (Bool.eq_false_iff.mpr fun h4 => hb ⟨h3, h4⟩)
            · exact Or.inl h3
          rw [rop_emit hm h2]
          exact (ih false).cons₂ l

theorem rop_not_match (hdr : Str) : ∀ (ls : List Str) (skip : Bool) (l : Str),
    l ∈ (removeOldProfile hdr skip ls).1 → pyStrip l ≠ hdr := by
  intro ls
  induction ls with
  | nil => intro skip l hl; rw [rop_nil] at hl; simp at hl
  | cons x r ih =>
    intro skip l hl
    by_cases hm : pyStrip x = hdr
    · rw [rop_match hm] at hl; exact ih true l hl
    · cases skip with
      | true =>
        by_cases hbr : startsWithBracket x = true
        · rw [rop_unskip_emit hm hbr] at hl
          rcases List.mem_cons.mp hl with h1 | h1
          · subst h1; exact hm
          · exact ih false l h1
        · rw [rop_skip_drop hm (Bool.eq_false_iff.mpr hbr)] at hl
          exact ih true l hl
      | false =>
        by_cases hb : (pyStrip x = []) ∧ nextBlank r = true
        · rw [rop_blank_drop hm hb.1 hb.2] at hl
          exact ih false l hl
        · have h2 : pyStrip x ≠ [] ∨ nextBlank r = false := by
            by_cases h3 : pyStrip x = []
            · exact Or.inr (Bool.eq_false_iff.mpr fun h4 => hb ⟨h3, h4⟩)
            · exact Or.inl h3
          rw [rop_emit hm h2] at hl
          rcases List.mem_cons.mp hl with h1 | h1
          · subst h1; exact hm
          · exact ih false l h1

theorem rop_drop_all (hdr : Str) : ∀ ls : List Str,
    (∀ l ∈ ls, startsWithBracket l = false) →
    (removeOldProfile hdr true ls).1 = [] := by
  intro ls
  induction ls with
  | nil => intro _; simp [rop_nil]
  | cons l r ih =>
    intro h
    by_cases hm : pyStrip l = hdr
    · rw [rop_match hm]
      exact ih fun x hx => h x (List.mem_cons_of_mem _ hx)
    · rw [rop_skip_drop hm (h l (List.mem_cons_self l r))]
      exact ih fun x hx => h x (List.mem_cons_of_mem _ hx)

theorem rop_resume (hdr : Str) : ∀ (mid lc : List Str),
    (∀ l ∈ mid, startsWithBracket l = false) →
    (∀ y ∈ lc.head?, startsWithBracket y = true ∧ pyStrip y ≠ hdr) →
    (removeOldProfile hdr true (mid ++ lc)).1 =
      (removeOldProfile hdr false lc).1 := by
  intro mid
  induction mid with
  | nil =>
    intro lc _ hlc
    cases lc with
    | nil => simp [rop_nil]
    | cons y t =>
      obtain ⟨hbr, hm⟩ := hlc y (by simp)
      rw [List.nil_append, rop_unskip_emit hm hbr,
        rop_emit hm (Or.inl (startsWithBracket_not_blank hbr))]
  | cons m mid' ih =>
    intro lc hmid hlc
    by_cases hm : pyStrip m = hdr
    · rw [List.cons_append, rop_match hm]
      exact ih lc (fun x hx => hmid x (List.mem_cons_of_mem _ hx)) hlc
    · rw [List.cons_append, rop_skip_drop hm (hmid m (List.mem_cons_self m mid'))]
      exact ih lc (fun x hx => hmid x (List.mem_cons_of_mem _ hx)) hlc

theorem rop_front_keep (hdr : Str) : ∀ (q r : List Str),
    (∀ l ∈ q, pyStrip l ≠ hdr) →
    List.Chain' notDoubleBlank q →
    (∀ x ∈ q.getLast?, ∀ y ∈ r.head?, notDoubleBlank x y) →
    removeOldProfile hdr false (q ++ r) =
      (q ++ (removeOldProfile hdr false r).1,
        (removeOldProfile hdr false r).2) := by
  intro q
  induction q with
  | nil => intro r _ _ _; simp
  | cons l q' ih =>
    intro r hq hchain hbound
    have hm : pyStrip l ≠ hdr := hq l (by simp)
    have hstep : pyStrip l ≠ [] ∨ nextBlank (q' ++ r) = false := by
      by_cases hb : pyStrip l = []
      · refine Or.inr ?_
        cases q' with
        | cons x q2 =>
          have hx := (List.chain'_cons'.mp hchain).1 x (by simp)
          rcases hx with hx | hx
          · exact absurd hb hx
          · simpa [nextBlank] using hx
        | nil =>
          rw [List.nil_append]
          cases r with
          | nil => simp [nextBlank]
          | cons y r2 =>
            have hy := hbound l (by simp) y (by simp)
            rcases hy with hy | hy
            · exact absurd hb hy
            · simpa [nextBlank] using hy
      · exact Or.inl hb
    rw [List.cons_append, rop_emit hm hstep]
    have ihq := ih r (fun x hx => hq x (List.mem_cons_of_mem _ hx))
      (List.chain'_cons'.mp hchain).2
      (by
        intro x hx y hy
        cases q' with
        | nil => simp at hx
        | cons z q2 =>
          refine hbound x ?_ y hy
          rw [List.getLast?_cons_cons]
          exact hx)
    rw [ihq]
    simp

theorem rop_clean_id (hdr : Str) (q : List Str)
    (h1 : ∀ l ∈ q, pyStrip l ≠ hdr)
    (h2 : List.Chain' notDoubleBlank q) :
    removeOldProfile hdr false q = (q, false) := by
  have h := rop_front_keep hdr q [] h1 h2 (by simp)
  simpa [rop_nil] using h

theorem save_eq (lines : List Str) (p a s t : Str) :
    save_credentials_to_profile lines p a s t =
      ((removeOldProfile (profileHeader p) false lines).1 ++
        sepIf (removeOldProfile (profileHeader p) false lines).1 ++
        newBlockLines p a s t,
       (removeOldProfile (profileHeader p) false lines).2) := rfl

theorem readlines_flatten_good {q : List Str} (hq : ∀ l ∈ q, goodLine l) :
    ∀ r : Str, readlines (q.flatten ++ r) = q ++ readlines r := by
  induction q with
  | nil => simp
  | cons g q' ih =>
    obtain ⟨b, hg, hb⟩ := hq g (by simp)
    intro r
    subst hg
    rw [show ((b ++ ['\n']) :: q').flatten ++ r = b ++ '\n' :: (q'.flatten ++ r) by
      simp]
    rw [readlines_cons_newline hb]
    rw [ih (fun l hl => hq l (List.mem_cons_of_mem _ hl)) r]
    simp

theorem readlines_flatten_of_good {q : List Str} (hq : ∀ l ∈ q, goodLine l) :
    readlines q.flatten = q := by
  have h := readlines_flatten_good hq []
  simpa [readlines, readlinesAux] using h

theorem newline_not_mem_profileHeader {p : Str} (hp : '\n' ∉ p) :
    '\n' ∉ profileHeader p := by
  intro h
  simp only [profileHeader, List.mem_cons, List.mem_append,
    List.mem_singleton] at h
  rcases h with h | h | h
  · exact absurd h (by decide)
  · exact hp h
  · exact absurd h (by decide)

theorem goodLine_concat_newline {b : Str} (hb : '\n' ∉ b) :
    goodLine (b ++ ['\n']) := ⟨b, rfl, hb⟩

theorem goodLine_newBlockLines {p a s t : Str} (hp : '\n' ∉ p) (ha : '\n' ∉ a)
    (hs : '\n' ∉ s) (ht : '\n' ∉ t) :
    ∀ l ∈ newBlockLines p a s t, goodLine l := by
  intro l hl
  simp only [newBlockLines, List.mem_cons, List.mem_singleton] at hl
  have hmem : ∀ lit v : Str, '\n' ∉ lit → '\n' ∉ v → goodLine (lit ++ v ++ ['\n']) := by
    intro lit v h1 h2
    refine ⟨lit ++ v, by simp, ?_⟩
    intro h
    rcases List.mem_append.mp h with h | h
    · exact h1 h
    · exact h2 h
  rcases hl with h | h | h | h | h
  · exact h ▸ goodLine_concat_newline (newline_not_mem_profileHeader hp)
  · exact h ▸ hmem _ _ (by decide) ha
  · exact h ▸ hmem _ _ (by decide) hs
  · exact h ▸ hmem _ _ (by decide) ht
  · simp at h

theorem k1_not_blank (a : Str) :
    pyStrip ("aws_access_key_id = ".data ++ a ++ ['\n']) ≠ [] := by
  refine not_blank_of_mem ?_ (show pySpace 'w' = false by decide)
  exact List.mem_append_left _ (List.mem_append_left _ (by decide))

theorem k2_not_blank (s : Str) :
    pyStrip ("aws_secret_access_key = ".data ++ s ++ ['\n']) ≠ [] := by
  refine not_blank_of_mem ?_ (show pySpace 'w' = false by decide)
  exact List.mem_append_left _ (List.mem_append_left _ (by decide))

theorem k3_not_blank (t : Str) :
    pyStrip ("aws_session_token = ".data ++ t ++ ['\n']) ≠ [] := by
  refine not_blank_of_mem ?_ (show pySpace 'w' = false by decide)
  exact List.mem_append_left _ (List.mem_append_left _ (by decide))

theorem chain_newBlock (p a s t : Str) :
    List.Chain' notDoubleBlank (newBlockLines p a s t) := by
  unfold newBlockLines
  refine List.chain'_cons'.mpr ⟨fun y _ => Or.inl (headerLine_not_blank p), ?_⟩
  refine List.chain'_cons'.mpr ⟨fun y _ => Or.inl (k1_not_blank a), ?_⟩
  refine List.chain'_cons'.mpr ⟨fun y _ => Or.inl (k2_not_blank s), ?_⟩
  exact List.chain'_singleton _

theorem head_newBlock_not_blank (p a s t : Str) :
    ∀ y ∈ (newBlockLines p a s t).head?, pyStrip y ≠ [] := by
  intro y hy
  simp only [newBlockLines, List.head?_cons, Option.mem_def,
    Option.some_inj] at hy
  subst hy
  exact headerLine_not_blank p

theorem sepIf_none {out : List Str} (h : out.getLast? = none) : sepIf out = [] := by
  unfold sepIf
  rw [h]

theorem sepIf_nil : sepIf [] = [] := rfl

theorem sepIf_blank {out : List Str} {l : Str} (h : out.getLast? = some l)
    (hb : pyStrip l = []) : sepIf out = [] := by
  unfold sepIf
  rw [h]
  simp [hb]

theorem sepIf_nonblank {out : List Str} {l : Str} (h : out.getLast? = some l)
    (hb : pyStrip l ≠ []) : sepIf out = [['\n']] := by
  unfold sepIf
  rw [h]
  simp [beq_eq_false_iff_ne.mpr hb]

theorem chain_sep_newBlock (out : List Str) (p a s t : Str) :
    List.Chain' notDoubleBlank (sepIf out ++ newBlockLines p a s t) := by
  rcases hout : out.getLast? with _ | l
  · rw [sepIf_none hout]
    simpa using chain_newBlock p a s t
  · by_cases hb : pyStrip l = []
    · rw [sepIf_blank hout hb]
      simpa using chain_newBlock p a s t
    · rw [sepIf_nonblank hout hb]
      rw [List.singleton_append, List.chain'_cons']
      exact ⟨fun y hy => Or.inr (head_newBlock_not_blank p a s t y hy),
        chain_newBlock p a s t⟩

theorem chain_save (lines : List Str) (p a s t : Str) :
    List.Chain' notDoubleBlank (save_credentials_to_profile lines p a s t).1 := by
  rw [save_eq]
  rw [List.append_assoc, List.chain'_append]
  refine ⟨rop_chain (profileHeader p) lines false,
    chain_sep_newBlock _ p a s t, ?_⟩
  intro x hx y hy
  by_cases hb : pyStrip x = []
  · rw [sepIf_blank (Option.mem_def.mp hx) hb, List.nil_append] at hy
    exact Or.inr (head_newBlock_not_blank p a s t y hy)
  · exact Or.inl hb

theorem goodLine_sepIf (out : List Str) : ∀ l ∈ sepIf out, goodLine l := by
  rcases h : out.getLast? with _ | x
  · rw [sepIf_none h]; simp
  · by_cases hb : pyStrip x = []
    · rw [sepIf_blank h hb]; simp
    · rw [sepIf_nonblank h hb]
      intro l hl
      rw [List.mem_singleton] at hl
      subst hl
      exact ⟨[], rfl, by simp⟩

theorem allButLastGood_front {q : List Str} {u : Str}
    (h : allButLastGood (q ++ [u])) : ∀ l ∈ q, goodLine l := by
  induction q with
  | nil => simp
  | cons x q' ih =>
    intro l hl
    have hx : goodLine x := goodLine_of_cons h (by simp)
    rcases List.mem_cons.mp hl with h1 | h1
    · exact h1 ▸ hx
    · exact ih (allButLastGood_of_cons h) l h1

theorem bracket_mem_profileHeader (p : Str) : '[' ∈ profileHeader p := by
  simp [profileHeader]

theorem merged_header_not_blank (u p : Str) :
    pyStrip ((u ++ profileHeader p) ++ ['\n']) ≠ [] := by
  rw [pyStrip_append_newline]
  exact not_blank_of_mem
    (List.mem_append_right u (bracket_mem_profileHeader p)) (by decide)

/-- C5: for every input file content, including inputs containing
arbitrarily many consecutive blank lines, the written output never
contains two consecutive blank lines (adjacent lines of the written
bytes are never both whitespace-only); the profile name and credential
values are single-line strings. -/
theorem c5_blank_line_bound (content p a s t : Str)
    (hp : '\n' ∉ p) (ha : '\n' ∉ a) (hs : '\n' ∉ s) (ht : '\n' ∉ t) :
    List.Chain' notDoubleBlank (readlines (writtenContent content p a s t)) := by
  have hnb : ∀ l ∈ newBlockLines p a s t, goodLine l :=
    goodLine_newBlockLines hp ha hs ht
  unfold writtenContent
  rw [save_eq]
  have hchain_out : List.Chain' notDoubleBlank
      (removeOldProfile (profileHeader p) false (readlines content)).1 :=
    rop_chain _ _ _
  have hsub : (removeOldProfile (profileHeader p) false (readlines content)).1.Sublist
      (readlines content) := rop_sublist _ _ _
  have habg : allButLastGood
      (removeOldProfile (profileHeader p) false (readlines content)).1 :=
    sublist_allButLastGood hsub (readlines_allButLastGood content)
  have hshape : ∀ l ∈ (removeOldProfile (profileHeader p) false (readlines content)).1,
      l ≠ [] ∧ ('\n' ∉ l ∨ goodLine l) := fun l hl =>
    readlines_mem_shape [] (by simp) l (hsub.mem hl)
  rcases List.eq_nil_or_concat
      (removeOldProfile (profileHeader p) false (readlines content)).1 with
    hout | ⟨q, u, hqu⟩
  · rw [hout, sepIf_nil]
    rw [List.nil_append, List.nil_append]
    rw [readlines_flatten_of_good hnb]
    exact chain_newBlock p a s t
  · rw [List.concat_eq_append] at hqu
    have hu_last : (removeOldProfile (profileHeader p) false (readlines content)).1.getLast? =
        some u := by rw [hqu]; exact List.getLast?_concat q
    have hu_mem : u ∈ (removeOldProfile (profileHeader p) false (readlines content)).1 := by
      rw [hqu]; simp
    have hq_good : ∀ l ∈ q, goodLine l := allButLastGood_front (hqu ▸ habg)
    have hchain_qu : List.Chain' notDoubleBlank (q ++ [u]) := hqu ▸ hchain_out
    have hchain_q : List.Chain' notDoubleBlank q :=
      (List.chain'_append.mp hchain_qu).1
    by_cases hgu : goodLine u
    · have hall : ∀ l ∈ (removeOldProfile (profileHeader p) false (readlines content)).1 ++
          sepIf (removeOldProfile (profileHeader p) false (readlines content)).1 ++
          newBlockLines p a s t, goodLine l := by
        intro l hl
        rcases List.mem_append.mp hl with hl | hl
        · rcases List.mem_append.mp hl with hl | hl
          · rw [hqu] at hl
            rcases List.mem_append.mp hl with hl | hl
            · exact hq_good l hl
            · rw [List.mem_singleton] at hl
              exact hl ▸ hgu
          · exact goodLine_sepIf _ l hl
        · exact hnb l hl
      rw [readlines_flatten_of_good hall]
      have h2 := chain_save (readlines content) p a s t
      rw [save_eq] at h2
      exact h2
    · have hu_nl : '\n' ∉ u := by
        rcases (hshape u hu_mem).2 with h | h
        · exact h
        · exact absurd h hgu
      by_cases hb : pyStrip u = []
      · rw [sepIf_blank hu_last hb, hqu]
        have hsplit : ((q ++ [u]) ++ [] ++ newBlockLines p a s t).flatten =
            q.flatten ++ ((u ++ profileHeader p) ++ '\n' ::
              ["aws_access_key_id = ".data ++ a ++ ['\n'],
               "aws_secret_access_key = ".data ++ s ++ ['\n'],
               "aws_session_token = ".data ++ t ++ ['\n']].flatten) := by
          simp [newBlockLines, List.flatten_append, List.append_assoc]
        rw [hsplit]
        have hm_nl : '\n' ∉ u ++ profileHeader p := by
          intro h
          rcases List.mem_append.mp h with h | h
          · exact hu_nl h
          · exact newline_not_mem_profileHeader hp h
        have hrest3 : ∀ l ∈ ["aws_access_key_id = ".data ++ a ++ ['\n'],
            "aws_secret_access_key = ".data ++ s ++ ['\n'],
            "aws_session_token = ".data ++ t ++ ['\n']], goodLine l := by
          intro l hl
          exact hnb l (List.mem_cons_of_mem _ hl)
        rw [readlines_flatten_good hq_good, readlines_cons_newline hm_nl,
          readlines_flatten_of_good hrest3]
        rw [List.chain'_append]
        refine ⟨hchain_q, ?_, ?_⟩
        · rw [List.chain'_cons']
          refine ⟨fun y _ => Or.inl (merged_header_not_blank u p), ?_⟩
          exact (List.chain'_cons'.mp (chain_newBlock p a s t)).2
        · intro x _ y hy
          simp only [List.head?_cons, Option.mem_def, Option.some_inj] at hy
          subst hy
          exact Or.inr (merged_header_not_blank u p)
      · rw [sepIf_nonblank hu_last hb, hqu]
        have hsplit : ((q ++ [u]) ++ [['\n']] ++ newBlockLines p a s t).flatten =
            q.flatten ++ (u ++ '\n' :: (newBlockLines p a s t).flatten) := by
          simp [List.flatten_append, List.append_assoc]
        rw [hsplit]
        rw [readlines_flatten_good hq_good, readlines_cons_newline hu_nl,
          readlines_flatten_of_good hnb]
        have hu2 : pyStrip (u ++ ['\n']) ≠ [] := by
          rw [pyStrip_append_newline]; exact hb
        rw [List.chain'_append]
        refine ⟨hchain_q, ?_, ?_⟩
        · rw [List.chain'_cons']
          exact ⟨fun y _ => Or.inl hu2, chain_newBlock p a s t⟩
        · intro x _ y hy
          simp only [List.head?_cons, Option.mem_def, Option.some_inj] at hy
          subst hy
          exact Or.inr hu2

theorem pyStrip_newline_nil : pyStrip ['\n'] = [] := by decide

theorem k1_not_bracket (a : Str) :
    startsWithBracket ("aws_access_key_id = ".data ++ a ++ ['\n']) = false := rfl

theorem k2_not_bracket (s : Str) :
    startsWithBracket ("aws_secret_access_key = ".data ++ s ++ ['\n']) = false := rfl

theorem k3_not_bracket (t : Str) :
    startsWithBracket ("aws_session_token = ".data ++ t ++ ['\n']) = false := rfl

theorem rop_newBlock (p a s t : Str) :
    removeOldProfile (profileHeader p) false (newBlockLines p a s t) =
      ([], true) := by
  unfold newBlockLines
  rw [rop_match (pyStrip_headerLine p)]
  rw [rop_drop_all]
  intro l hl
  simp only [List.mem_cons, List.not_mem_nil, or_false] at hl
  rcases hl with h | h | h
  · exact h ▸ k1_not_bracket a
  · exact h ▸ k2_not_bracket s
  · exact h ▸ k3_not_bracket t

theorem rop_sep_newBlock (out : List Str) (p a s t : Str) :
    removeOldProfile (profileHeader p) false
        (sepIf out ++ newBlockLines p a s t) =
      (sepIf out, true) := by
  rcases h : out.getLast? with _ | x
  · rw [sepIf_none h, List.nil_append, rop_newBlock]
  · by_cases hb : pyStrip x = []
    · rw [sepIf_blank h hb, List.nil_append, rop_newBlock]
    · rw [sepIf_nonblank h hb, List.singleton_append]
      have hm : pyStrip ['\n'] ≠ profileHeader p := by
        rw [pyStrip_newline_nil]
        exact fun hcon => profileHeader_ne_nil p hcon.symm
      have hnb2 : nextBlank (newBlockLines p a s t) = false :=
        beq_eq_false_iff_ne.mpr (headerLine_not_blank p)
      rw [rop_emit hm (Or.inr hnb2), rop_newBlock]

theorem rop_written (lines : List Str) (p a s t : Str) :
    removeOldProfile (profileHeader p) false
        ((removeOldProfile (profileHeader p) false lines).1 ++
          sepIf (removeOldProfile (profileHeader p) false lines).1 ++
          newBlockLines p a s t) =
      ((removeOldProfile (profileHeader p) false lines).1 ++
        sepIf (removeOldProfile (profileHeader p) false lines).1, true) := by
  rw [List.append_assoc]
  rw [rop_front_keep _ _ _ (fun l hl => rop_not_match _ _ _ l hl)
    (rop_chain _ _ _) ?_]
  · rw [rop_sep_newBlock]
  · intro x hx y hy
    by_cases hb : pyStrip x = []
    · rw [sepIf_blank (Option.mem_def.mp hx) hb, List.nil_append] at hy
      exact Or.inr (head_newBlock_not_blank p a s t y hy)
    · exact Or.inl hb

theorem sepIf_append_sepIf (out : List Str) : sepIf (out ++ sepIf out) = [] := by
  rcases h : out.getLast? with _ | x
  · have h2 : out = [] := by
      cases out with
      | nil => rfl
      | cons y ys => simp at h
    subst h2
    rfl
  · by_cases hb : pyStrip x = []
    · rw [sepIf_blank h hb, List.append_nil]
      exact sepIf_blank h hb
    · rw [sepIf_nonblank h hb]
      exact sepIf_blank (List.getLast?_concat out) pyStrip_newline_nil

theorem save_written_stable (lines : List Str) (p a s t : Str) :
    save_credentials_to_profile
        ((save_credentials_to_profile lines p a s t).1) p a s t =
      ((save_credentials_to_profile lines p a s t).1, true) := by
  rw [save_eq ((save_credentials_to_profile lines p a s t).1) p a s t]
  rw [save_eq lines p a s t]
  rw [rop_written lines p a s t]
  rw [sepIf_append_sepIf]
  simp

/-- C5 witness: hypotheses hold and the bound holds at a concrete store
containing four consecutive blank lines. -/
theorem c5_witness :
    ('\n' ∉ "p".data) ∧
    List.Chain' notDoubleBlank (readlines (writtenContent
      "[a]\nx = 1\n\n\n\n\n[b]\ny = 2\n".data "p".data "A".data "S".data "T".data)) :=
  ⟨by decide, c5_blank_line_bound _ _ _ _ _
    (by decide) (by decide) (by decide) (by decide)⟩

/-- C2 counterexample: for the one-byte content x (no trailing newline)
the second reconciliation is not a no-op: the first pass terminates the
line and the second pass then inserts a separator blank line, so the
bytes differ. -/
theorem c2_counterexample :
    writtenContent (writtenContent "x".data "p".data "A".data "S".data "T".data)
        "p".data "A".data "S".data "T".data ≠
      writtenContent "x".data "p".data "A".data "S".data "T".data := by
  decide

/-- C2 (amended): applying the reconciliation twice with the same profile
name and credential block yields byte-identical content to applying it
once, provided the profile name and credential values are single-line and
the prior content is empty or newline-terminated. -/
theorem c2_idempotent_amended (c p a s t : Str) (hp : '\n' ∉ p)
    (ha : '\n' ∉ a) (hs : '\n' ∉ s) (ht : '\n' ∉ t)
    (hc : c = [] ∨ c.getLast? = some '\n') :
    writtenContent (writtenContent c p a s t) p a s t =
      writtenContent c p a s t := by
  unfold writtenContent
  have hgood : ∀ l ∈ (save_credentials_to_profile (readlines c) p a s t).1,
      goodLine l := by
    rw [save_eq]
    intro l hl
    rcases List.mem_append.mp hl with hl | hl
    · rcases List.mem_append.mp hl with hl | hl
      · exact readlines_allGood hc l ((rop_sublist _ _ _).mem hl)
      · exact goodLine_sepIf _ l hl
    · exact goodLine_newBlockLines hp ha hs ht l hl
  rw [readlines_flatten_of_good hgood]
  rw [save_written_stable]

/-- C2 witness: hypotheses hold and idempotence holds at a concrete
newline-terminated store. -/
theorem c2_witness :
    (("[old]\nx = 1\n".data : Str) = [] ∨
      ("[old]\nx = 1\n".data : Str).getLast? = some '\n') ∧
    writtenContent (writtenContent "[old]\nx = 1\n".data "dev".data
        "A".data "S".data "T".data) "dev".data "A".data "S".data "T".data =
      writtenContent "[old]\nx = 1\n".data "dev".data "A".data "S".data "T".data :=
  ⟨by decide, c2_idempotent_amended _ _ _ _ _
    (by decide) (by decide) (by decide) (by decide) (by decide)⟩

/-- C4 counterexample: with no target block present the operation is not
a pure append leaving prior blocks unchanged: blank-line collapse alters
the prior block, so the original content is not a prefix of the output. -/
theorem c4_counterexample :
    List.take 8 (writtenContent "[a]\nx\n\n\n".data "p".data
        "A".data "S".data "T".data) ≠ "[a]\nx\n\n\n".data := by
  decide

/-- C4 (amended): the output always ends with the new block; empty input
produces exactly the new block with no leading separator; and when no
line strips to the target header and the input has no two consecutive
blank lines, the operation is a pure append: the original bytes, then at
most one separator newline, then the new block. -/
theorem c4_append_amended (c p a s t : Str) :
    (∃ pre : Str, writtenContent c p a s t =
      pre ++ (newBlockLines p a s t).flatten) ∧
    writtenContent [] p a s t = (newBlockLines p a s t).flatten ∧
    ((∀ l ∈ readlines c, pyStrip l ≠ profileHeader p) →
      List.Chain' notDoubleBlank (readlines c) →
      writtenContent c p a s t =
        c ++ (sepIf (readlines c)).flatten ++ (newBlockLines p a s t).flatten) := by
  refine ⟨?_, ?_, ?_⟩
  · unfold writtenContent
    rw [save_eq]
    exact ⟨((removeOldProfile (profileHeader p) false (readlines c)).1 ++
      sepIf (removeOldProfile (profileHeader p) false (readlines c)).1).flatten,
      List.flatten_append _ _⟩
  · rfl
  · intro h1 h2
    unfold writtenContent
    rw [save_eq, rop_clean_id _ _ h1 h2]
    show ((readlines c) ++ sepIf (readlines c) ++ newBlockLines p a s t).flatten = _
    rw [List.flatten_append, List.flatten_append, flatten_readlines]

/-- C4 witness: the pure-append form holds at a concrete store with no
target block and no doubled blank lines. -/
theorem c4_witness :
    writtenContent "[a]\nv = 1\n".data "p".data "A".data "S".data "T".data =
      "[a]\nv = 1\n".data ++ (sepIf (readlines "[a]\nv = 1\n".data)).flatten ++
        (newBlockLines "p".data "A".data "S".data "T".data).flatten :=
  (c4_append_amended "[a]\nv = 1\n".data "p".data "A".data "S".data "T".data).2.2
    (by decide) (chain'_of_noDoubleBlankB (by decide))

/-- C6 counterexample: lines before the first section header are not
discarded: the junk prefix line appears verbatim at the start of the
written output. -/
theorem c6_counterexample :
    List.take 5 (writtenContent "junk\n[a]\nx = 1\n".data "p".data
        "A".data "S".data "T".data) = "junk\n".data := by
  decide

/-- C6 (amended): lines before the first section header are retained, not
discarded: a non-blank first line that does not strip to the target
header reappears verbatim as the first bytes of the written output. -/
theorem c6_head_retained_amended (c p a s t : Str) (l : Str) (rest : List Str)
    (hsplit : readlines c = l :: rest)
    (hm : pyStrip l ≠ profileHeader p) (hb : pyStrip l ≠ []) :
    List.take l.length (writtenContent c p a s t) = l := by
  unfold writtenContent
  rw [save_eq, hsplit, rop_emit hm (Or.inl hb)]
  show ((l :: (removeOldProfile (profileHeader p) false rest).1) ++
    sepIf (l :: (removeOldProfile (profileHeader p) false rest).1) ++
    newBlockLines p a s t).flatten.take l.length = l
  rw [show ((l :: (removeOldProfile (profileHeader p) false rest).1) ++
      sepIf (l :: (removeOldProfile (profileHeader p) false rest).1) ++
      newBlockLines p a s t).flatten =
      l ++ ((removeOldProfile (profileHeader p) false rest).1 ++
        sepIf (l :: (removeOldProfile (profileHeader p) false rest).1) ++
        newBlockLines p a s t).flatten by
    simp [List.flatten_append, List.append_assoc]]
  exact List.take_left l _

/-- C6 witness: the retained-prefix property at the counterexample input. -/
theorem c6_witness :
    List.take ("junk\n".data : Str).length (writtenContent
      "junk\n[a]\nx = 1\n".data "q".data "A".data "S".data "T".data) =
      "junk\n".data :=
  c6_head_retained_amended "junk\n[a]\nx = 1\n".data "q".data "A".data "S".data
    "T".data "junk\n".data ["[a]\n".data, "x = 1\n".data]
    (by decide) (by decide) (by decide)

/-- C1 counterexample: block A contains two consecutive blank lines; the
reconcile targeting B collapses them, so A is not byte-identical in the
output: the claim fails because the first 8 bytes of the output are no
longer A's original bytes. -/
theorem c1_counterexample :
    List.take 8 (writtenContent "[A]\nx\n\n\n[B]\ny\n[C]\nz\n".data "B".data
        "AK".data "SK".data "TK".data) ≠ "[A]\nx\n\n\n".data := by
  decide

/-- C1 (amended): for a store made of block A, block B (the target: a
header stripping to the target header followed by body lines that do not
start with a bracket), and block C (whose first line is a column-0
header), where A and C contain no line stripping to the target header and
no two consecutive blank lines, the reconciled output is exactly A then C
unchanged and in order, a separator, and the new block: only B is
excised. -/
theorem c1_preservation_amended (la bodyB lc : List Str) (hb : Str)
    (p a s t : Str)
    (h1 : ∀ l ∈ la, pyStrip l ≠ profileHeader p)
    (h2 : List.Chain' notDoubleBlank la)
    (h3 : pyStrip hb = profileHeader p)
    (h4 : ∀ l ∈ bodyB, startsWithBracket l = false)
    (h5 : ∀ l ∈ lc, pyStrip l ≠ profileHeader p)
    (h6 : List.Chain' notDoubleBlank lc)
    (h7 : ∀ y ∈ lc.head?, startsWithBracket y = true) :
    save_credentials_to_profile (la ++ hb :: (bodyB ++ lc)) p a s t =
      ((la ++ lc) ++ sepIf (la ++ lc) ++ newBlockLines p a s t, true) ∧
    (save_credentials_to_profile (la ++ hb :: (bodyB ++ lc)) p a s t).1.flatten =
      la.flatten ++ (lc.flatten ++ ((sepIf (la ++ lc)).flatten ++
        (newBlockLines p a s t).flatten)) := by
  have hbound : ∀ x ∈ la.getLast?, ∀ y ∈ (hb :: (bodyB ++ lc)).head?,
      notDoubleBlank x y := by
    intro x _ y hy
    simp only [List.head?_cons, Option.mem_def, Option.some_inj] at hy
    subst hy
    refine Or.inr ?_
    rw [h3]
    exact profileHeader_ne_nil p
  have hres : ∀ y ∈ lc.head?, startsWithBracket y = true ∧
      pyStrip y ≠ profileHeader p := fun y hy =>
    ⟨h7 y hy, h5 y (List.mem_of_mem_head? hy)⟩
  have hrop : removeOldProfile (profileHeader p) false
      (la ++ hb :: (bodyB ++ lc)) = (la ++ lc, true) := by
    rw [rop_front_keep _ la (hb :: (bodyB ++ lc)) h1 h2 hbound]
    rw [rop_match h3]
    rw [rop_resume _ bodyB lc h4 hres]
    rw [rop_clean_id _ lc h5 h6]
  constructor
  · rw [save_eq, hrop]
  · rw [save_eq, hrop]
    simp [List.flatten_append]

/-- C1 witness: hypotheses hold and preservation holds at a concrete
three-block store targeting the middle block. -/
theorem c1_witness :
    pyStrip "[B]\n".data = profileHeader "B".data ∧
    save_credentials_to_profile (["[A]\n".data, "x = 1\n".data] ++
        "[B]\n".data :: (["y = 2\n".data] ++ ["[C]\n".data, "z = 3\n".data]))
        "B".data "AK".data "SK".data "TK".data =
      ((["[A]\n".data, "x = 1\n".data] ++ ["[C]\n".data, "z = 3\n".data]) ++
        sepIf (["[A]\n".data, "x = 1\n".data] ++ ["[C]\n".data, "z = 3\n".data]) ++
        newBlockLines "B".data "AK".data "SK".data "TK".data, true) :=
  ⟨by decide,
   (c1_preservation_amended ["[A]\n".data, "x = 1\n".data] ["y = 2\n".data]
     ["[C]\n".data, "z = 3\n".data] "[B]\n".data "B".data "AK".data "SK".data
     "TK".data (by decide) (chain'_of_noDoubleBlankB (by decide)) (by decide)
     (by decide) (by decide) (chain'_of_noDoubleBlankB (by decide))
     (by decide)).1⟩

/-- C9: when the target block is removed, skipping stops only at a line
whose first character is a left bracket in column 0; if every line after
the target header lacks a column-0 bracket (for example when the next
header is indented), all of them, including that entire following
section, are deleted along with the target block. -/
theorem c9_indented_header_deleted (la rest : List Str) (hb : Str)
    (p a s t : Str)
    (h1 : ∀ l ∈ la, pyStrip l ≠ profileHeader p)
    (h2 : List.Chain' notDoubleBlank la)
    (h3 : pyStrip hb = profileHeader p)
    (h4 : ∀ l ∈ rest, startsWithBracket l = false) :
    save_credentials_to_profile (la ++ hb :: rest) p a s t =
      (la ++ sepIf la ++ newBlockLines p a s t, true) := by
  have hbound : ∀ x ∈ la.getLast?, ∀ y ∈ (hb :: rest).head?,
      notDoubleBlank x y := by
    intro x _ y hy
    simp only [List.head?_cons, Option.mem_def, Option.some_inj] at hy
    subst hy
    refine Or.inr ?_
    rw [h3]
    exact profileHeader_ne_nil p
  have hrop : removeOldProfile (profileHeader p) false (la ++ hb :: rest) =
      (la, true) := by
    rw [rop_front_keep _ la (hb :: rest) h1 h2 hbound]
    rw [rop_match h3]
    rw [rop_drop_all _ rest h4]
    simp
  rw [save_eq, hrop]

/-- C9 witness: a store whose section after the target has an indented
header; the target block and that whole section disappear and only the
leading block, a separator and the new block are written. -/
theorem c9_witness :
    pyStrip "[gone]\n".data = profileHeader "gone".data ∧
    save_credentials_to_profile (["[keep]\n".data, "k = 1\n".data] ++
        "[gone]\n".data :: ["x = 1\n".data, "  [other]\n".data, "y = 2\n".data])
        "gone".data "A".data "S".data "T".data =
      (["[keep]\n".data, "k = 1\n".data] ++
        sepIf ["[keep]\n".data, "k = 1\n".data] ++
        newBlockLines "gone".data "A".data "S".data "T".data, true) :=
  ⟨by decide,
   c9_indented_header_deleted ["[keep]\n".data, "k = 1\n".data]
     ["x = 1\n".data, "  [other]\n".data, "y = 2\n".data] "[gone]\n".data
     "gone".data "A".data "S".data "T".data (by decide)
     (chain'_of_noDoubleBlankB (by decide)) (by decide) (by decide)⟩

/-- C3 counterexample: an I/O failure during the write is not reported to
the caller at all: the call returns normally (the except handler at lines
231-232 only prints), so no StoreWriteFailure or any other error reaches
the caller. -/
theorem c3_counterexample :
    save_credentials_write_cycle (.ok (readlines "[a]\nx = 1\n".data))
        (some "disk full".data) "p".data "A".data "S".data "T".data =
      .ok { written := none, printedWriteError := true } := rfl

/-- C3 (amended): a read failure propagates to the caller as the raw
underlying exception (the read at lines 176-180 has no handler); a write
failure is caught by the except IOError handler, which prints a message
and returns normally, writing nothing; without failures the full
reconciled line sequence is written. No StoreWriteFailure type exists in
the code, and no atomicity mechanism is present. -/
theorem c3_write_cycle_amended (p a s t : Str) :
    (∀ (e : PyExc) (w : Option Str),
      save_credentials_write_cycle (.error e) w p a s t = .error e) ∧
    (∀ (lines : List Str) (msg : Str),
      save_credentials_write_cycle (.ok lines) (some msg) p a s t =
        .ok { written := none, printedWriteError := true }) ∧
    (∀ lines : List Str,
      save_credentials_write_cycle (.ok lines) none p a s t =
        .ok { written := some (save_credentials_to_profile lines p a s t).1,
              printedWriteError := false }) :=
  ⟨fun _ _ => rfl, fun _ _ => rfl, fun _ => rfl⟩

/-- C8: for every assume-role attempt reaching the broker, a success
performs the store write for the profile assumed-account and appends one
SUCCESS audit line; any broker failure skips the store write, leaves the
store unchanged, and appends one FAILED audit line; every attempt appends
exactly one audit line. -/
theorem c8_broker_outcomes (store account session ts : Str)
    (outcome : BrokerOutcome) :
    (assume_command store account session ts outcome).audit.length = 1 ∧
    (match outcome with
     | .ok c =>
        (assume_command store account session ts outcome).wroteProfile =
          some ("assumed-".data ++ account) ∧
        (assume_command store account session ts outcome).store =
          writtenContent store ("assumed-".data ++ account) c.AccessKeyId
            c.SecretAccessKey c.SessionToken ∧
        (assume_command store account session ts outcome).audit =
          [log_line ts true account session none]
     | .clientError _ msg =>
        (assume_command store account session ts outcome).wroteProfile = none ∧
        (assume_command store account session ts outcome).store = store ∧
        (assume_command store account session ts outcome).audit =
          [log_line ts false account session (some msg)]
     | .unexpected msg =>
        (assume_command store account session ts outcome).wroteProfile = none ∧
        (assume_command store account session ts outcome).store = store ∧
        (assume_command store account session ts outcome).audit =
          [log_line ts false account session (some msg)]) := by
  cases outcome <;> exact ⟨rfl, rfl, rfl, rfl⟩

/-- C10: whenever the config file exists, load_config either returns the
decoded configuration or fails with a ConfigError; every read, decode or
validation exception (including the attribute error from a non-string
account id) is caught by the handlers and re-raised as ConfigError. -/
theorem c10_load_config_total (decoded : Except PyExc JVal) :
    (∃ cfg, load_config decoded = .ok cfg) ∨
    (∃ m, load_config decoded = .error (.configError m)) := by
  cases decoded with
  | error e => cases e <;> exact Or.inr ⟨_, rfl⟩
  | ok cfg =>
    cases hv : validate_config cfg with
    | ok u => exact Or.inl ⟨cfg, by simp [load_config, hv]⟩
    | error e =>
      refine Or.inr ?_
      cases e with
      | configError m =>
        exact ⟨"Error loading config: ".data ++ m, by simp [load_config, hv, strOfExc]⟩
      | jsonDecodeError m =>
        exact ⟨"Invalid JSON in config file: ".data ++ m, by simp [load_config, hv, strOfExc]⟩
      | osError m =>
        exact ⟨"Error loading config: ".data ++ m, by simp [load_config, hv, strOfExc]⟩
      | attributeError m =>
        exact ⟨"Error loading config: ".data ++ m, by simp [load_config, hv, strOfExc]⟩
      | typeError m =>
        exact ⟨"Error loading config: ".data ++ m, by simp [load_config, hv, strOfExc]⟩
      | keyError m =>
        exact ⟨"Error loading config: ".data ++ m, by simp [load_config, hv, strOfExc]⟩

theorem any_of_dictGet {kvs : List (Str × JVal)} {k : Str} {v : JVal}
    (h : dictGet kvs k = some v) :
    kvs.any (fun kv => kv.1 == k) = true := by
  unfold dictGet at h
  rcases hf : (kvs.filter fun kv => kv.1 == k).getLast? with _ | kv2
  · rw [hf] at h; simp at h
  · have hmem : kv2 ∈ kvs.filter (fun kv => kv.1 == k) :=
      List.mem_of_mem_getLast? hf
    rw [List.mem_filter] at hmem
    rw [List.any_eq_true]
    exact ⟨kv2, hmem.1, hmem.2⟩

theorem validateAccount_ok {x : JVal} (h : accountOk x = true) (i : Nat) :
    validateAccount i x = .ok () := by
  cases x with
  | obj kvs =>
    simp only [accountOk, Bool.and_eq_true] at h
    obtain ⟨⟨h1, h2⟩, h3⟩ := h
    rcases hget : dictGet kvs "account_id".data with _ | v
    · rw [hget] at h3; simp at h3
    · rw [hget] at h3
      cases v with
      | str s =>
        rw [Bool.and_eq_true] at h3
        obtain ⟨hdig, hlen⟩ := h3
        have hlen12 : s.length = 12 := by simpa using hlen
        simp [validateAccount, pyIn, pyGet, pyIsdigitAttr, pyLen, h1, h2,
          hget, hdig, hlen12]
      | null => simp at h3
      | bool b => simp at h3
      | num n => simp at h3
      | arr xs => simp at h3
      | obj kvs2 => simp at h3
  | null => simp [accountOk] at h
  | bool b => simp [accountOk] at h
  | num n => simp [accountOk] at h
  | str s => simp [accountOk] at h
  | arr xs => simp [accountOk] at h

theorem validateAccount_bad {kvsB : List (Str × JVal)} {nam ids : Str}
    (hnam : dictGet kvsB "name".data = some (.str nam))
    (hid : dictGet kvsB "account_id".data = some (.str ids))
    (hfail : ¬(pyIsdigit ids = true ∧ ids.length = 12)) (i : Nat) :
    validateAccount i (JVal.obj kvsB) =
      .error (.configError ("Account '".data ++ nam ++
        "' has invalid account_id format".data)) := by
  have h1 := any_of_dictGet hnam
  have h2 := any_of_dictGet hid
  by_cases hdig : pyIsdigit ids = true
  · have hlen : ids.length ≠ 12 := fun hl => hfail ⟨hdig, hl⟩
    simp [validateAccount, pyIn, pyGet, pyIsdigitAttr, pyLen, pyStr, h1, h2,
      hnam, hid, hdig, hlen]
  · have hdigf : pyIsdigit ids = false := Bool.eq_false_iff.mpr hdig
    simp [validateAccount, pyIn, pyGet, pyIsdigitAttr, pyStr, h1, h2,
      hnam, hid, hdigf]

theorem validateAccounts_error {kvsB : List (Str × JVal)} {nam ids : Str}
    (post : List JVal)
    (hnam : dictGet kvsB "name".data = some (.str nam))
    (hid : dictGet kvsB "account_id".data = some (.str ids))
    (hfail : ¬(pyIsdigit ids = true ∧ ids.length = 12)) :
    ∀ pre : List JVal, (∀ x ∈ pre, accountOk x = true) → ∀ i : Nat,
    validateAccounts i (pre ++ JVal.obj kvsB :: post) =
      .error (.configError ("Account '".data ++ nam ++
        "' has invalid account_id format".data)) := by
  intro pre
  induction pre with
  | nil =>
    intro _ i
    rw [List.nil_append]
    simp [validateAccounts, validateAccount_bad hnam hid hfail i]
  | cons x pre' ih =>
    intro hpre i
    have hx := hpre x (by simp)
    rw [List.cons_append]
    simp [validateAccounts, validateAccount_ok hx i,
      ih (fun y hy => hpre y (List.mem_cons_of_mem _ hy)) (i + 1)]

theorem validate_config_error {kvs0 : List (Str × JVal)} {accounts : List JVal}
    (hacc : dictGet kvs0 "accounts".data = some (.arr accounts))
    {m : Str} (hv : validateAccounts 0 accounts = .error (.configError m)) :
    validate_config (JVal.obj kvs0) = .error (.configError m) := by
  have h1 := any_of_dictGet hacc
  simp [validate_config, pyIn, pyGet, h1, hacc, hv]

theorem load_config_wrap {cfg : JVal} {m : Str}
    (h : validate_config cfg = .error (.configError m)) :
    load_config (.ok cfg) =
      .error (.configError ("Error loading config: ".data ++ m)) := by
  simp [load_config, h, strOfExc]

/-- C7 counterexample: an account id of twelve superscript-two characters
is not a string of 12 ASCII digits, yet Python isdigit accepts it, so
validation passes, load_config succeeds, and the process proceeds to run
the list command — no ConfigError is raised. -/
theorem c7_counterexample :
    isTwelveAsciiDigits "²²²²²²²²²²²²".data = false ∧
    load_config (.ok unicodeDigitRegistry) = .ok unicodeDigitRegistry ∧
    main_model (load_config (.ok unicodeDigitRegistry)) ["list".data] =
      .ranList :=
  ⟨by decide, rfl, rfl⟩

/-- C7 (amended): for every registry whose accounts are a list of valid
entries followed by an account whose account_id is a string rejected by
Python isdigit-with-length-12 (rather than by the ASCII-digit test),
load_config raises a ConfigError naming the offending account, and main
runs no command for any argument vector. -/
theorem c7_validation_amended (kvs0 : List (Str × JVal)) (pre post : List JVal)
    (kvsB : List (Str × JVal)) (nam ids : Str)
    (hacc : dictGet kvs0 "accounts".data =
      some (.arr (pre ++ JVal.obj kvsB :: post)))
    (hpre : ∀ x ∈ pre, accountOk x = true)
    (hnam : dictGet kvsB "name".data = some (.str nam))
    (hid : dictGet kvsB "account_id".data = some (.str ids))
    (hfail : ¬(pyIsdigit ids = true ∧ ids.length = 12)) :
    load_config (.ok (JVal.obj kvs0)) =
      .error (.configError ("Error loading config: ".data ++
        ("Account '".data ++ nam ++ "' has invalid account_id format".data))) ∧
    ∀ args : List Str,
      main_model (load_config (.ok (JVal.obj kvs0))) args = .initFailed := by
  have hv := validateAccounts_error post hnam hid hfail pre hpre 0
  have hvc := validate_config_error hacc hv
  have hl := load_config_wrap hvc
  exact ⟨hl, fun args => by rw [hl]; cases args <;> rfl⟩

/-- C7 witness: the spec scenario itself, a five-digit id 12345: a
ConfigError naming the account is raised at load and the assume command
does not run. -/
theorem c7_witness :
    load_config (.ok fiveDigitRegistry) =
      .error (.configError ("Error loading config: ".data ++
        ("Account '".data ++ "dev".data ++
          "' has invalid account_id format".data))) ∧
    main_model (load_config (.ok fiveDigitRegistry))
      ["assume".data, "dev".data] = .initFailed := by
  have h := c7_validation_amended
    [("accounts".data, JVal.arr [JVal.obj [("name".data, JVal.str "dev".data),
      ("account_id".data, JVal.str "12345".data)]])] [] []
    [("name".data, JVal.str "dev".data),
      ("account_id".data, JVal.str "12345".data)]
    "dev".data "12345".data rfl (by simp) rfl rfl (by decide)
  exact ⟨h.1, h.2 ["assume".data, "dev".data]⟩

/-- Spec scenario: writing to an empty store yields exactly the new block
with no leading separator. -/
theorem scenario_empty_store :
    writtenContent "".data "dev".data "AK".data "SK".data "TOK".data =
      "[dev]\naws_access_key_id = AK\naws_secret_access_key = SK\naws_session_token = TOK\n".data := by
  decide

/-- Spec scenario: replacing the main block moves it to end-of-file with
exactly one blank line between the dev block and the appended block. -/
theorem scenario_move_to_end :
    writtenContent "[main]\nk = 1\n\n\n\n[dev]\nk = 2\n".data "main".data
        "A".data "S".data "T".data =
      "[dev]\nk = 2\n\n[main]\naws_access_key_id = A\naws_secret_access_key = S\naws_session_token = T\n".data := by
  decide
